import Mathlib

/-!
Verification development for the decode driver in vhsdecode/main.py.

The embedding models the body of main from the point where the parsed
arguments are available (line 175 onward).  External collaborators that are
opaque to the driver (the sample loader, the VHSDecode engine, the json dump
thread) are represented by the observable events the driver exchanges with
them, in source order.  A run is driven by a MainInput: flags saying whether
the loader and the engine constructor succeed, the parsed tape-format
arguments, the requested frame count, and a script listing what each
readfield call does (return a field, return None, raise KeyboardInterrupt,
or raise another exception).  The result of a run is the ordered trace of
observable events together with the process outcome.
-/

/-- One observable action of main, in source order.  Print events name the
print statements of main.py; maskSigint and restoreSigint are the two
signal.signal calls (lines 208 and 246); putSnapshot n is a
jsondumper.put of build_json made while fields_written equals n;
putSentinel is jsondumper.put None; closeEngine is vhsd.close. -/
inductive Event where
  | printValueError
  | printTerminated
  | printErrHeader
  | printErrSample (offset : Nat)
  | printErrArgs
  | printErrException
  | printSaving
  | maskSigint
  | restoreSigint
  | warnTapeFormat (fmt : String)
  | constructEngine (fmt : String)
  | startWriter
  | putSnapshot (n : Nat)
  | closeEngine
  | putSentinel
  deriving DecidableEq, Repr

/-- Behaviour of one vhsd.readfield call, as seen by the loop body
(lines 266-289): a field is returned, None is returned, KeyboardInterrupt
is raised, or some other Exception is raised. -/
inductive ReadResult where
  | field
  | terminal
  | interrupt
  | err
  deriving DecidableEq, Repr

/-- Driver-visible engine state: the fields_written counter, the fdoffset
diagnostic counter, and the local done flag of the loop.
Modelled from the spec: fields_written lives inside the VHSDecode engine
(vhsdecode/process.py, not part of the verified sources); per the spec it is
non-negative, non-decreasing, and is updated on every successful iteration,
so the model increments it by one per successful readfield. -/
structure DrvState where
  fieldsWritten : Nat
  fdoffset : Nat
  done : Bool
  deriving DecidableEq, Repr

/-- The snapshot cadence test of line 288:
fields_written is below 100, or fields_written is an exact multiple of 500. -/
def snapshotCond (n : Nat) : Bool :=
  n < 100 || n % 500 == 0

/-- Events emitted by line 288-289: a snapshot is enqueued exactly when
snapshotCond holds of the current fields_written. -/
def snapEvs (st : DrvState) : List Event :=
  if snapshotCond st.fieldsWritten then [Event.putSnapshot st.fieldsWritten] else []

/-- The cleanup function of lines 261-264: enqueue build_json of the current
field, close the engine, enqueue the None sentinel, in that order. -/
def cleanupTrace (st : DrvState) : List Event :=
  [Event.putSnapshot st.fieldsWritten, Event.closeEngine, Event.putSentinel]

/-- The stderr diagnostic block of lines 274-280: header, current sample
offset, the argument namespace, and the exception with its traceback. -/
def diagTrace (st : DrvState) : List Event :=
  [Event.printErrHeader, Event.printErrSample st.fdoffset,
   Event.printErrArgs, Event.printErrException]

/-- How a run of main ends: exit with a code, or propagate the exception
raised by engine construction (which main does not catch). -/
inductive Outcome where
  | exited (code : Nat)
  | ctorRaised
  deriving DecidableEq, Repr

/-- Result of running the decode loop: the trace of events emitted from the
loop entry on, the outcome, the final driver state, and the part of the
readfield script that was never consumed. -/
structure RunRes where
  trace : List Event
  outcome : Outcome
  finalState : DrvState
  remaining : List ReadResult
  deriving DecidableEq, Repr

/-- The decode loop of lines 266-293.  The loop guard is
not done and fields_written below req_frames * 2 (target).  Each iteration
performs one readfield whose behaviour the script dictates:
KeyboardInterrupt prints and exits 1 after cleanup; any other exception
prints the stderr diagnostic and exits 1 after cleanup; a None return sets
done; a field return increments fields_written (see DrvState).  After a
non-raising readfield the snapshot cadence of line 288 runs.  When the guard
fails the code after the loop (lines 291-293) prints, cleans up and exits 0.
Returns none when the script is exhausted while the guard still holds
(a real readfield always returns or raises, so complete runs are those where
the result is some). -/
def runLoop (target : Nat) : List ReadResult → DrvState → Option RunRes
  | script, st =>
    if st.done = true ∨ target ≤ st.fieldsWritten then
      some ⟨[Event.printSaving] ++ cleanupTrace st, Outcome.exited 0, st, script⟩
    else
      match script with
      | [] => none
      | ReadResult.interrupt :: rest =>
          some ⟨[Event.printTerminated] ++ cleanupTrace st, Outcome.exited 1, st, rest⟩
      | ReadResult.err :: rest =>
          some ⟨diagTrace st ++ cleanupTrace st, Outcome.exited 1, st, rest⟩
      | ReadResult.field :: rest =>
          let st' : DrvState := ⟨st.fieldsWritten + 1, st.fdoffset, st.done⟩
          (runLoop target rest st').map fun r => ⟨snapEvs st' ++ r.trace, r.outcome, r.finalState, r.remaining⟩
      | ReadResult.terminal :: rest =>
          let st' : DrvState := ⟨st.fieldsWritten, st.fdoffset, true⟩
          (runLoop target rest st').map fun r => ⟨snapEvs st' ++ r.trace, r.outcome, r.finalState, r.remaining⟩

/-- The supported_tape_formats set of line 17. -/
def supported_tape_formats : List String := ["VHS", "SVHS", "UMATIC"]

/-- Input to a run of main from line 175 on: whether make_loader succeeds
(line 181), the use_gui parameter and parsed umatic and tape_format
arguments, whether VHSDecode construction (line 230) succeeds, the requested
frame count, the initial engine fdoffset, and the readfield script. -/
structure MainInput where
  loaderOk : Bool
  useGui : Bool
  umatic : Bool
  tapeFormatArg : String
  ctorOk : Bool
  reqFrames : Nat
  fdoffset0 : Nat
  script : List ReadResult
  deriving DecidableEq, Repr

/-- The upper method of Python str, applied at line 215: every character is
mapped to its uppercase form. -/
def strUpper (s : String) : String :=
  ⟨s.data.map Char.toUpper⟩

/-- Lines 212-215: UMATIC when the umatic flag is set outside the gui,
otherwise the upper-cased tape_format argument. -/
def effectiveTapeFormat (inp : MainInput) : String :=
  if inp.useGui = false ∧ inp.umatic = true then "UMATIC"
  else strUpper inp.tapeFormatArg

/-- Result of a full run of main: event trace and outcome. -/
structure MainRes where
  trace : List Event
  outcome : Outcome
  deriving DecidableEq, Repr

/-- The warning of lines 216-217: fires exactly when the effective tape
format is not in supported_tape_formats. -/
def warnEvs (inp : MainInput) : List Event :=
  if effectiveTapeFormat inp ∈ supported_tape_formats then []
  else [Event.warnTapeFormat (effectiveTapeFormat inp)]

/-- Events of lines 208-259 when engine construction succeeds: mask SIGINT,
possibly warn about the tape format, construct the engine with the unchanged
effective format, restore the original SIGINT handler, start the json dump
thread. -/
def preTrace (inp : MainInput) : List Event :=
  [Event.maskSigint] ++ warnEvs inp ++
    [Event.constructEngine (effectiveTapeFormat inp), Event.restoreSigint, Event.startWriter]

/-- Main from line 180 on.  A loader failure prints the ValueError and exits
1 before anything else is built (lines 180-184).  Otherwise SIGINT is masked
(line 208), the tape-format warning of lines 216-217 fires when the
effective format is unsupported, the engine is constructed with the
unchanged effective format (line 230), the original SIGINT handler is
restored (line 246), the json dump thread is started (line 259), and the
decode loop runs.  If construction raises, the exception propagates with no
restore (there is no handler between lines 230 and 246). -/
def runMain (inp : MainInput) : Option MainRes :=
  if inp.loaderOk = false then
    some ⟨[Event.printValueError], Outcome.exited 1⟩
  else if inp.ctorOk = false then
    some ⟨[Event.maskSigint] ++ warnEvs inp, Outcome.ctorRaised⟩
  else
    (runLoop (inp.reqFrames * 2) inp.script ⟨0, inp.fdoffset0, false⟩).map
      fun r => ⟨preTrace inp ++ r.trace, r.outcome⟩

/-- Whether an event is a message enqueued on the json dump queue. -/
def isQueueMsg : Event → Bool
  | Event.putSnapshot _ => true
  | Event.putSentinel => true
  | _ => false

/-- The queue messages of a trace, in enqueue order. -/
def queueMsgs (tr : List Event) : List Event :=
  tr.filter isQueueMsg

/-- Modelled from the spec: the json dump thread of lddecode.utils
(jsondump_thread, not part of the verified sources) consumes queue messages
in FIFO order, writes each snapshot, and stops as soon as it consumes the
sentinel; finalization blocks until the writer has drained and stopped, so
the messages the writer has processed when the process completes are exactly
the prefix of the enqueued messages up to and including the first
sentinel. -/
def writerProcessed : List Event → List Event
  | [] => []
  | m :: rest =>
      if m = Event.putSentinel then [m] else m :: writerProcessed rest

/-- Events that can only be emitted from inside the loop body, before cleanup. -/
def isBodyEvent : Event → Bool
  | Event.printSaving => true
  | Event.printTerminated => true
  | Event.printErrHeader => true
  | Event.printErrSample _ => true
  | Event.printErrArgs => true
  | Event.printErrException => true
  | Event.putSnapshot _ => true
  | _ => false

/-- Events the decode loop can emit at all. -/
def isLoopEvent : Event → Bool
  | Event.maskSigint => false
  | Event.restoreSigint => false
  | Event.constructEngine _ => false
  | Event.startWriter => false
  | Event.warnTapeFormat _ => false
  | Event.printValueError => false
  | _ => true

/-! Helper lemmas about the decode loop. -/

theorem runLoop_exit (target : Nat) (script : List ReadResult) (st : DrvState)
    (h : st.done = true ∨ target ≤ st.fieldsWritten) :
    runLoop target script st =
      some ⟨[Event.printSaving] ++ cleanupTrace st, Outcome.exited 0, st, script⟩ := by
  cases script with
  | nil => unfold runLoop; simp [h]
  | cons r rest => unfold runLoop; simp [h]

theorem runLoop_live_interrupt (target : Nat) (rest : List ReadResult) (st : DrvState)
    (h : ¬ (st.done = true ∨ target ≤ st.fieldsWritten)) :
    runLoop target (ReadResult.interrupt :: rest) st =
      some ⟨[Event.printTerminated] ++ cleanupTrace st, Outcome.exited 1, st, rest⟩ := by
  unfold runLoop; simp [h]

theorem runLoop_live_err (target : Nat) (rest : List ReadResult) (st : DrvState)
    (h : ¬ (st.done = true ∨ target ≤ st.fieldsWritten)) :
    runLoop target (ReadResult.err :: rest) st =
      some ⟨diagTrace st ++ cleanupTrace st, Outcome.exited 1, st, rest⟩ := by
  unfold runLoop; simp [h]

theorem runLoop_live_field (target : Nat) (rest : List ReadResult) (st : DrvState)
    (h : ¬ (st.done = true ∨ target ≤ st.fieldsWritten)) :
    runLoop target (ReadResult.field :: rest) st =
      (runLoop target rest ⟨st.fieldsWritten + 1, st.fdoffset, st.done⟩).map
        fun r => ⟨snapEvs ⟨st.fieldsWritten + 1, st.fdoffset, st.done⟩ ++ r.trace,
                  r.outcome, r.finalState, r.remaining⟩ := by
  conv_lhs => unfold runLoop
  simp [h]

theorem runLoop_live_terminal (target : Nat) (rest : List ReadResult) (st : DrvState)
    (h : ¬ (st.done = true ∨ target ≤ st.fieldsWritten)) :
    runLoop target (ReadResult.terminal :: rest) st =
      (runLoop target rest ⟨st.fieldsWritten, st.fdoffset, true⟩).map
        fun r => ⟨snapEvs ⟨st.fieldsWritten, st.fdoffset, true⟩ ++ r.trace,
                  r.outcome, r.finalState, r.remaining⟩ := by
  conv_lhs => unfold runLoop
  simp [h]

theorem mem_snapEvs {e : Event} {st : DrvState} (h : e ∈ snapEvs st) :
    e = Event.putSnapshot st.fieldsWritten := by
  unfold snapEvs at h
  split at h <;> simp_all

theorem runLoop_shape (script : List ReadResult) : ∀ (target : Nat) (st : DrvState) (res : RunRes),
    runLoop target script st = some res →
    (∀ e ∈ res.trace, isLoopEvent e = true) ∧
    ∃ body, res.trace = body ++ cleanupTrace res.finalState ∧ ∀ e ∈ body, isBodyEvent e = true := by
  induction script with
  | nil =>
    intro target st res h
    by_cases hg : st.done = true ∨ target ≤ st.fieldsWritten
    · rw [runLoop_exit _ _ _ hg] at h
      obtain rfl : (⟨[Event.printSaving] ++ cleanupTrace st, Outcome.exited 0, st, []⟩ : RunRes) = res :=
        Option.some.inj h
      refine ⟨?_, [Event.printSaving], rfl, ?_⟩
      · intro e he
        simp [cleanupTrace] at he
        rcases he with rfl | rfl | rfl | rfl <;> rfl
      · intro e he; simp at he; subst he; rfl
    · unfold runLoop at h; simp [hg] at h
  | cons r rest ih =>
    intro target st res h
    by_cases hg : st.done = true ∨ target ≤ st.fieldsWritten
    · rw [runLoop_exit _ _ _ hg] at h
      obtain rfl : (⟨[Event.printSaving] ++ cleanupTrace st, Outcome.exited 0, st, r :: rest⟩ : RunRes) = res :=
        Option.some.inj h
      refine ⟨?_, [Event.printSaving], rfl, ?_⟩
      · intro e he
        simp [cleanupTrace] at he
        rcases he with rfl | rfl | rfl | rfl <;> rfl
      · intro e he; simp at he; subst he; rfl
    · cases r with
      | interrupt =>
        rw [runLoop_live_interrupt _ _ _ hg] at h
        obtain rfl : (⟨[Event.printTerminated] ++ cleanupTrace st, Outcome.exited 1, st, rest⟩ : RunRes) = res :=
          Option.some.inj h
        refine ⟨?_, [Event.printTerminated], rfl, ?_⟩
        · intro e he
          simp [cleanupTrace] at he
          rcases he with rfl | rfl | rfl | rfl <;> rfl
        · intro e he; simp at he; subst he; rfl
      | err =>
        rw [runLoop_live_err _ _ _ hg] at h
        obtain rfl : (⟨diagTrace st ++ cleanupTrace st, Outcome.exited 1, st, rest⟩ : RunRes) = res :=
          Option.some.inj h
        refine ⟨?_, diagTrace st, rfl, ?_⟩
        · intro e he
          simp [cleanupTrace, diagTrace] at he
          rcases he with rfl | rfl | rfl | rfl | rfl | rfl | rfl <;> rfl
        · intro e he
          simp [diagTrace] at he
          rcases he with rfl | rfl | rfl | rfl <;> rfl
      | field =>
        rw [runLoop_live_field _ _ _ hg] at h
        rcases Option.map_eq_some'.mp h with ⟨r0, hr0, rfl⟩
        obtain ⟨hall, body, hb, hbody⟩ := ih target _ r0 hr0
        refine ⟨?_, snapEvs ⟨st.fieldsWritten + 1, st.fdoffset, st.done⟩ ++ body, by simp [hb], ?_⟩
        · intro e he
          simp at he
          rcases he with he | he
          · rw [mem_snapEvs he]; rfl
          · exact hall e he
        · intro e he
          rcases List.mem_append.mp he with he | he
          · rw [mem_snapEvs he]; rfl
          · exact hbody e he
      | terminal =>
        rw [runLoop_live_terminal _ _ _ hg] at h
        rcases Option.map_eq_some'.mp h with ⟨r0, hr0, rfl⟩
        obtain ⟨hall, body, hb, hbody⟩ := ih target _ r0 hr0
        refine ⟨?_, snapEvs ⟨st.fieldsWritten, st.fdoffset, true⟩ ++ body, by simp [hb], ?_⟩
        · intro e he
          simp at he
          rcases he with he | he
          · rw [mem_snapEvs he]; rfl
          · exact hall e he
        · intro e he
          rcases List.mem_append.mp he with he | he
          · rw [mem_snapEvs he]; rfl
          · exact hbody e he

theorem runLoop_exit_code (script : List ReadResult) : ∀ (target : Nat) (st : DrvState) (res : RunRes),
    runLoop target script st = some res →
    (res.outcome = Outcome.exited 0 ∧ Event.printTerminated ∉ res.trace ∧
      Event.printErrHeader ∉ res.trace) ∨
    (res.outcome = Outcome.exited 1 ∧
      (Event.printTerminated ∈ res.trace ∨ Event.printErrHeader ∈ res.trace)) := by
  induction script with
  | nil =>
    intro target st res h
    by_cases hg : st.done = true ∨ target ≤ st.fieldsWritten
    · rw [runLoop_exit _ _ _ hg] at h
      obtain rfl : (⟨[Event.printSaving] ++ cleanupTrace st, Outcome.exited 0, st, []⟩ : RunRes) = res :=
        Option.some.inj h
      exact Or.inl ⟨rfl, by simp [cleanupTrace], by simp [cleanupTrace]⟩
    · unfold runLoop at h; simp [hg] at h
  | cons r rest ih =>
    intro target st res h
    by_cases hg : st.done = true ∨ target ≤ st.fieldsWritten
    · rw [runLoop_exit _ _ _ hg] at h
      obtain rfl : (⟨[Event.printSaving] ++ cleanupTrace st, Outcome.exited 0, st, r :: rest⟩ : RunRes) = res :=
        Option.some.inj h
      exact Or.inl ⟨rfl, by simp [cleanupTrace], by simp [cleanupTrace]⟩
    · cases r with
      | interrupt =>
        rw [runLoop_live_interrupt _ _ _ hg] at h
        obtain rfl : (⟨[Event.printTerminated] ++ cleanupTrace st, Outcome.exited 1, st, rest⟩ : RunRes) = res :=
          Option.some.inj h
        exact Or.inr ⟨rfl, Or.inl (by simp)⟩
      | err =>
        rw [runLoop_live_err _ _ _ hg] at h
        obtain rfl : (⟨diagTrace st ++ cleanupTrace st, Outcome.exited 1, st, rest⟩ : RunRes) = res :=
          Option.some.inj h
        exact Or.inr ⟨rfl, Or.inr (by simp [diagTrace])⟩
      | field =>
        rw [runLoop_live_field _ _ _ hg] at h
        rcases Option.map_eq_some'.mp h with ⟨r0, hr0, rfl⟩
        rcases ih target _ r0 hr0 with ⟨h0, h1, h2⟩ | ⟨h0, h1⟩
        · refine Or.inl ⟨h0, ?_, ?_⟩
          · simp only [List.mem_append]
            rintro (hm | hm)
            · exact absurd (mem_snapEvs hm) (by simp)
            · exact h1 hm
          · simp only [List.mem_append]
            rintro (hm | hm)
            · exact absurd (mem_snapEvs hm) (by simp)
            · exact h2 hm
        · refine Or.inr ⟨h0, ?_⟩
          rcases h1 with h1 | h1
          · exact Or.inl (by simp only [List.mem_append]; exact Or.inr h1)
          · exact Or.inr (by simp only [List.mem_append]; exact Or.inr h1)
      | terminal =>
        rw [runLoop_live_terminal _ _ _ hg] at h
        rcases Option.map_eq_some'.mp h with ⟨r0, hr0, rfl⟩
        rcases ih target _ r0 hr0 with ⟨h0, h1, h2⟩ | ⟨h0, h1⟩
        · refine Or.inl ⟨h0, ?_, ?_⟩
          · simp only [List.mem_append]
            rintro (hm | hm)
            · exact absurd (mem_snapEvs hm) (by simp)
            · exact h1 hm
          · simp only [List.mem_append]
            rintro (hm | hm)
            · exact absurd (mem_snapEvs hm) (by simp)
            · exact h2 hm
        · refine Or.inr ⟨h0, ?_⟩
          rcases h1 with h1 | h1
          · exact Or.inl (by simp only [List.mem_append]; exact Or.inr h1)
          · exact Or.inr (by simp only [List.mem_append]; exact Or.inr h1)

theorem runLoop_fields (k : Nat) : ∀ (target : Nat) (st : DrvState) (rest : List ReadResult),
    st.done = false → st.fieldsWritten + k = target →
    ∃ res, runLoop target (List.replicate k ReadResult.field ++ rest) st = some res ∧
      res.outcome = Outcome.exited 0 ∧ res.finalState.fieldsWritten = target ∧
      res.remaining = rest := by
  induction k with
  | zero =>
    intro target st rest hd ht
    refine ⟨_, runLoop_exit target rest st (Or.inr (by omega)), rfl, by simpa using ht.symm ▸ rfl, rfl⟩
  | succ k ih =>
    intro target st rest hd ht
    have hg : ¬ (st.done = true ∨ target ≤ st.fieldsWritten) := by
      simp [hd]; omega
    rw [List.replicate_succ, List.cons_append, runLoop_live_field _ _ _ hg]
    obtain ⟨res, hres, h0, h1, h2⟩ :=
      ih target ⟨st.fieldsWritten + 1, st.fdoffset, st.done⟩ rest hd (by simp; omega)
    refine ⟨⟨snapEvs ⟨st.fieldsWritten + 1, st.fdoffset, st.done⟩ ++ res.trace,
      res.outcome, res.finalState, res.remaining⟩, ?_, h0, h1, h2⟩
    rw [hres]
    rfl

theorem runLoop_terminal_early (k : Nat) : ∀ (target : Nat) (st : DrvState) (rest : List ReadResult),
    st.done = false → st.fieldsWritten + k < target →
    ∃ res, runLoop target (List.replicate k ReadResult.field ++ ReadResult.terminal :: rest) st = some res ∧
      res.outcome = Outcome.exited 0 ∧ res.finalState.fieldsWritten = st.fieldsWritten + k ∧
      res.remaining = rest := by
  induction k with
  | zero =>
    intro target st rest hd ht
    have hg : ¬ (st.done = true ∨ target ≤ st.fieldsWritten) := by
      simp [hd]; omega
    rw [List.replicate_zero, List.nil_append, runLoop_live_terminal _ _ _ hg,
      runLoop_exit target rest ⟨st.fieldsWritten, st.fdoffset, true⟩ (Or.inl rfl)]
    exact ⟨_, rfl, rfl, by simp, rfl⟩
  | succ k ih =>
    intro target st rest hd ht
    have hg : ¬ (st.done = true ∨ target ≤ st.fieldsWritten) := by
      simp [hd]; omega
    rw [List.replicate_succ, List.cons_append, runLoop_live_field _ _ _ hg]
    obtain ⟨res, hres, h0, h1, h2⟩ :=
      ih target ⟨st.fieldsWritten + 1, st.fdoffset, st.done⟩ rest hd (by simp; omega)
    refine ⟨⟨snapEvs ⟨st.fieldsWritten + 1, st.fdoffset, st.done⟩ ++ res.trace,
      res.outcome, res.finalState, res.remaining⟩, ?_, h0, ?_, h2⟩
    · rw [hres]
      rfl
    · show res.finalState.fieldsWritten = st.fieldsWritten + (k + 1)
      simp at h1
      omega

theorem writerProcessed_all {ms : List Event} (h : Event.putSentinel ∉ ms) :
    writerProcessed (ms ++ [Event.putSentinel]) = ms ++ [Event.putSentinel] := by
  induction ms with
  | nil => simp [writerProcessed]
  | cons m rest ih =>
    simp only [List.mem_cons] at h
    push_neg at h
    obtain ⟨h1, h2⟩ := h
    have hm : ¬ m = Event.putSentinel := fun hh => h1 hh.symm
    simp [writerProcessed, hm, ih h2]

theorem runMain_loader_fail (inp : MainInput) (hl : inp.loaderOk = false) :
    runMain inp = some ⟨[Event.printValueError], Outcome.exited 1⟩ := by
  unfold runMain
  simp [hl]

theorem runMain_ctor_fail (inp : MainInput) (hl : inp.loaderOk = true)
    (hc : inp.ctorOk = false) :
    runMain inp = some ⟨[Event.maskSigint] ++ warnEvs inp, Outcome.ctorRaised⟩ := by
  unfold runMain
  simp [hl, hc]

theorem runMain_ok (inp : MainInput) (hl : inp.loaderOk = true) (hc : inp.ctorOk = true) :
    runMain inp = (runLoop (inp.reqFrames * 2) inp.script ⟨0, inp.fdoffset0, false⟩).map
      fun r => ⟨preTrace inp ++ r.trace, r.outcome⟩ := by
  unfold runMain
  simp [hl, hc]

theorem mem_warnEvs {e : Event} {inp : MainInput} (h : e ∈ warnEvs inp) :
    e = Event.warnTapeFormat (effectiveTapeFormat inp) := by
  unfold warnEvs at h
  split at h <;> simp_all

theorem mem_preTrace {e : Event} {inp : MainInput} (h : e ∈ preTrace inp) :
    e = Event.maskSigint ∨ e = Event.warnTapeFormat (effectiveTapeFormat inp) ∨
    e = Event.constructEngine (effectiveTapeFormat inp) ∨ e = Event.restoreSigint ∨
    e = Event.startWriter := by
  unfold preTrace at h
  simp at h
  rcases h with h | h | h | h | h
  · exact Or.inl h
  · exact Or.inr (Or.inl (mem_warnEvs h))
  · exact Or.inr (Or.inr (Or.inl h))
  · exact Or.inr (Or.inr (Or.inr (Or.inl h)))
  · exact Or.inr (Or.inr (Or.inr (Or.inr h)))

theorem preTrace_no_queueMsg {e : Event} {inp : MainInput} (h : e ∈ preTrace inp) :
    isQueueMsg e = false := by
  rcases mem_preTrace h with h | h | h | h | h <;> subst h <;> rfl

/-- Claim C4 counterexample: at fieldsWritten equal to 100 the cadence test
of line 288 is false (100 is not below 100 and 100 mod 500 is 100), so no
snapshot is enqueued, contradicting the claim that a snapshot is enqueued at
every value of 1..100. -/
theorem C4_counterexample :
    snapshotCond 100 = false ∧
    snapEvs ⟨100, 0, false⟩ = [] ∧
    ¬ (∀ n < 101, 1 ≤ n → snapshotCond n = true) := by
  refine ⟨by decide, by decide, ?_⟩
  intro h
  have := h 100 (by omega) (by omega)
  simp [snapshotCond] at this

/-- Claim C4 amended: within the decode loop a snapshot is built and
enqueued on an iteration exactly when the current fieldsWritten is below 100
or is an exact multiple of 500; for fieldsWritten values 1..99 a snapshot is
enqueued at every value, and for values 100..1999 only at 500, 1000 and
1500. -/
theorem C4_snapshot_cadence :
    (∀ target rest st, st.done = false → st.fieldsWritten < target →
      runLoop target (ReadResult.field :: rest) st =
        (runLoop target rest ⟨st.fieldsWritten + 1, st.fdoffset, st.done⟩).map
          fun r => ⟨(if st.fieldsWritten + 1 < 100 ∨ (st.fieldsWritten + 1) % 500 = 0
                     then [Event.putSnapshot (st.fieldsWritten + 1)] else []) ++ r.trace,
                    r.outcome, r.finalState, r.remaining⟩) ∧
    (∀ n, snapshotCond n = true ↔ (n < 100 ∨ n % 500 = 0)) ∧
    (∀ n < 100, 1 ≤ n → snapshotCond n = true) ∧
    (∀ n < 2000, 100 ≤ n → (snapshotCond n = true ↔ (n = 500 ∨ n = 1000 ∨ n = 1500))) := by
  refine ⟨?_, ?_, ?_, ?_⟩
  · intro target rest st hd ht
    have hg : ¬ (st.done = true ∨ target ≤ st.fieldsWritten) := by simp [hd]; omega
    rw [runLoop_live_field _ _ _ hg]
    have : snapEvs ⟨st.fieldsWritten + 1, st.fdoffset, st.done⟩ =
        (if st.fieldsWritten + 1 < 100 ∨ (st.fieldsWritten + 1) % 500 = 0
         then [Event.putSnapshot (st.fieldsWritten + 1)] else []) := by
      simp [snapEvs, snapshotCond]
    rw [this]
  · intro n
    simp [snapshotCond]
  · intro n hn h1
    simp [snapshotCond]
    omega
  · intro n hn h100
    simp [snapshotCond]
    omega

/-- Claim C4 amended, witness. -/
theorem C4_snapshot_cadence_witness :
    runLoop 4 [ReadResult.field] ⟨0, 0, false⟩ =
      (runLoop 4 [] ⟨1, 0, false⟩).map
        (fun r => ⟨(if 1 < 100 ∨ 1 % 500 = 0 then [Event.putSnapshot 1] else []) ++ r.trace,
                   r.outcome, r.finalState, r.remaining⟩) ∧
    snapshotCond 50 = true ∧ (snapshotCond 500 = true ↔ (500 = 500 ∨ 500 = 1000 ∨ 500 = 1500)) := by
  refine ⟨?_, ?_, ?_⟩
  · have := C4_snapshot_cadence.1 4 [] ⟨0, 0, false⟩ rfl (by decide)
    simpa using this
  · exact C4_snapshot_cadence.2.2.1 50 (by omega) (by omega)
  · exact C4_snapshot_cadence.2.2.2 500 (by omega) (by omega)

/-- Claim C5 counterexample: with a working loader and an engine constructor
that raises (lines 230-244), the run masks SIGINT but never restores it:
line 246 is unreachable because no handler protects the construction, so the
claim that the prior disposition is restored on the error path is false. -/
theorem C5_counterexample :
    ∃ res, runMain ⟨true, false, false, "VHS", false, 1, 0, []⟩ = some res ∧
      res.outcome = Outcome.ctorRaised ∧
      Event.maskSigint ∈ res.trace ∧ Event.restoreSigint ∉ res.trace := by
  refine ⟨⟨[Event.maskSigint], Outcome.ctorRaised⟩, rfl, rfl, ?_, ?_⟩ <;> decide

/-- Claim C5 amended: the SIGINT disposition goes Default to Masked to
Default only on the path where engine construction succeeds: the prior
handler is restored immediately after construction and never touched again;
if construction raises, the error propagates with the handler still masked
(no restore event ever occurs). -/
theorem C5_interrupt_guard (inp : MainInput) (hl : inp.loaderOk = true) :
    (∀ res, inp.ctorOk = true → runMain inp = some res →
      ∃ tl, res.trace = [Event.maskSigint] ++ warnEvs inp ++
          [Event.constructEngine (effectiveTapeFormat inp), Event.restoreSigint] ++ tl ∧
        Event.maskSigint ∉ tl ∧ Event.restoreSigint ∉ tl) ∧
    (∀ res, inp.ctorOk = false → runMain inp = some res →
      res.outcome = Outcome.ctorRaised ∧ Event.maskSigint ∈ res.trace ∧
      Event.restoreSigint ∉ res.trace) := by
  constructor
  · intro res hc h
    rw [runMain_ok inp hl hc] at h
    rcases Option.map_eq_some'.mp h with ⟨r0, hr0, rfl⟩
    obtain ⟨hall, _⟩ := runLoop_shape _ _ _ _ hr0
    refine ⟨Event.startWriter :: r0.trace, ?_, ?_, ?_⟩
    · simp [preTrace]
    · intro hm
      simp at hm
      have := hall _ hm
      simp [isLoopEvent] at this
    · intro hm
      simp at hm
      have := hall _ hm
      simp [isLoopEvent] at this
  · intro res hc h
    rw [runMain_ctor_fail inp hl hc] at h
    obtain rfl : (⟨[Event.maskSigint] ++ warnEvs inp, Outcome.ctorRaised⟩ : MainRes) = res :=
      Option.some.inj h
    refine ⟨rfl, by simp, ?_⟩
    intro hm
    simp at hm
    exact absurd (mem_warnEvs hm) (by simp)

/-- Claim C5 amended, witness: a successful construction restores the
handler; a failing construction leaves it masked. -/
theorem C5_interrupt_guard_witness :
    (∃ res, runMain ⟨true, false, false, "VHS", true, 0, 0, []⟩ = some res ∧
      ∃ tl, res.trace = [Event.maskSigint] ++ warnEvs ⟨true, false, false, "VHS", true, 0, 0, []⟩ ++
          [Event.constructEngine (effectiveTapeFormat ⟨true, false, false, "VHS", true, 0, 0, []⟩),
           Event.restoreSigint] ++ tl ∧
        Event.maskSigint ∉ tl ∧ Event.restoreSigint ∉ tl) ∧
    (∃ res, runMain ⟨true, false, false, "SVHS", false, 2, 0, []⟩ = some res ∧
      res.outcome = Outcome.ctorRaised ∧ Event.maskSigint ∈ res.trace ∧
      Event.restoreSigint ∉ res.trace) := by
  constructor
  · refine ⟨⟨[Event.maskSigint, Event.constructEngine "VHS", Event.restoreSigint, Event.startWriter,
        Event.printSaving, Event.putSnapshot 0, Event.closeEngine, Event.putSentinel],
        Outcome.exited 0⟩, rfl, ?_⟩
    exact (C5_interrupt_guard _ rfl).1 _ rfl rfl
  · refine ⟨⟨[Event.maskSigint], Outcome.ctorRaised⟩, rfl, ?_⟩
    exact (C5_interrupt_guard ⟨true, false, false, "SVHS", false, 2, 0, []⟩ rfl).2
      ⟨[Event.maskSigint], Outcome.ctorRaised⟩ rfl rfl

/-- Claim C8: when make_loader raises a ValueError (lines 180-184), the run
prints the error and exits 1 at once: no engine is constructed, the json
dump thread is never started, and no finalization event (snapshot, close,
sentinel) occurs. -/
theorem C8_loader_error_aborts (inp : MainInput) (hl : inp.loaderOk = false) :
    ∃ res, runMain inp = some res ∧
      res.trace = [Event.printValueError] ∧ res.outcome = Outcome.exited 1 ∧
      (∀ fmt, Event.constructEngine fmt ∉ res.trace) ∧
      Event.startWriter ∉ res.trace ∧ Event.closeEngine ∉ res.trace ∧
      Event.putSentinel ∉ res.trace ∧ (∀ n, Event.putSnapshot n ∉ res.trace) := by
  refine ⟨⟨[Event.printValueError], Outcome.exited 1⟩, runMain_loader_fail inp hl,
    rfl, rfl, ?_, ?_, ?_, ?_, ?_⟩
  · intro fmt; simp
  · simp
  · simp
  · simp
  · intro n; simp

/-- Claim C8, witness. -/
theorem C8_loader_error_aborts_witness :
    ∃ res, runMain ⟨false, false, false, "VHS", true, 3, 0, []⟩ = some res ∧
      res.trace = [Event.printValueError] ∧ res.outcome = Outcome.exited 1 ∧
      (∀ fmt, Event.constructEngine fmt ∉ res.trace) ∧
      Event.startWriter ∉ res.trace ∧ Event.closeEngine ∉ res.trace ∧
      Event.putSentinel ∉ res.trace ∧ (∀ n, Event.putSnapshot n ∉ res.trace) :=
  C8_loader_error_aborts ⟨false, false, false, "VHS", true, 3, 0, []⟩ rfl

/-- Claim C9: for an effective tape format outside the supported set the run
logs the defaulting-to-VHS warning (lines 216-217) but still constructs the
engine with the unchanged, unsupported format (line 236): the only
constructEngine event carries that format, so no substitution of VHS
happens. -/
theorem C9_unsupported_format_not_substituted (inp : MainInput) (res : MainRes)
    (hl : inp.loaderOk = true) (hc : inp.ctorOk = true)
    (h : runMain inp = some res)
    (hf : effectiveTapeFormat inp ∉ supported_tape_formats) :
    Event.warnTapeFormat (effectiveTapeFormat inp) ∈ res.trace ∧
    Event.constructEngine (effectiveTapeFormat inp) ∈ res.trace ∧
    (∀ g, Event.constructEngine g ∈ res.trace → g = effectiveTapeFormat inp) := by
  rw [runMain_ok inp hl hc] at h
  rcases Option.map_eq_some'.mp h with ⟨r0, hr0, rfl⟩
  obtain ⟨hall, _⟩ := runLoop_shape _ _ _ _ hr0
  refine ⟨?_, ?_, ?_⟩
  · simp [preTrace, warnEvs, hf]
  · simp [preTrace]
  · intro g hg
    simp at hg
    rcases hg with hg | hg
    · rcases mem_preTrace hg with hx | hx | hx | hx | hx <;> simp_all
    · have := hall _ hg
      simp [isLoopEvent] at this

/-- Claim C9, witness: format BETAMAX is warned about and passed through
unchanged. -/
theorem C9_unsupported_format_witness :
    ∃ res, runMain ⟨true, false, false, "BETAMAX", true, 0, 0, []⟩ = some res ∧
      Event.warnTapeFormat "BETAMAX" ∈ res.trace ∧
      Event.constructEngine "BETAMAX" ∈ res.trace ∧
      (∀ g, Event.constructEngine g ∈ res.trace → g = "BETAMAX") := by
  refine ⟨⟨[Event.maskSigint, Event.warnTapeFormat "BETAMAX", Event.constructEngine "BETAMAX",
      Event.restoreSigint, Event.startWriter, Event.printSaving, Event.putSnapshot 0,
      Event.closeEngine, Event.putSentinel], Outcome.exited 0⟩, rfl, ?_⟩
  exact C9_unsupported_format_not_substituted ⟨true, false, false, "BETAMAX", true, 0, 0, []⟩
    ⟨[Event.maskSigint, Event.warnTapeFormat "BETAMAX", Event.constructEngine "BETAMAX",
      Event.restoreSigint, Event.startWriter, Event.printSaving, Event.putSnapshot 0,
      Event.closeEngine, Event.putSentinel], Outcome.exited 0⟩ rfl rfl rfl (by decide)

/-- Claim C10: on the iteration where readfield returns None, the cadence
test of line 288 still runs with the unchanged fields_written counter, so a
snapshot can be enqueued again for a value that already got one on the
previous iteration; concretely, one field followed by the terminal marker
enqueues putSnapshot 1 twice inside the loop (and a third time in cleanup). -/
theorem C10_terminal_iteration_snapshot :
    (∀ target rest st, st.done = false → st.fieldsWritten < target →
      runLoop target (ReadResult.terminal :: rest) st =
        some ⟨(if snapshotCond st.fieldsWritten then [Event.putSnapshot st.fieldsWritten] else []) ++
                [Event.printSaving] ++ cleanupTrace ⟨st.fieldsWritten, st.fdoffset, true⟩,
              Outcome.exited 0, ⟨st.fieldsWritten, st.fdoffset, true⟩, rest⟩) ∧
    (∃ res, runLoop 10 [ReadResult.field, ReadResult.terminal] ⟨0, 0, false⟩ = some res ∧
      res.trace = [Event.putSnapshot 1, Event.putSnapshot 1, Event.printSaving,
                   Event.putSnapshot 1, Event.closeEngine, Event.putSentinel] ∧
      res.trace.count (Event.putSnapshot 1) = 3) := by
  constructor
  · intro target rest st hd ht
    have hg : ¬ (st.done = true ∨ target ≤ st.fieldsWritten) := by simp [hd]; omega
    rw [runLoop_live_terminal _ _ _ hg, runLoop_exit _ _ _ (Or.inl rfl)]
    simp [snapEvs]
  · exact ⟨_, rfl, rfl, rfl⟩

/-- Claim C10, witness. -/
theorem C10_terminal_iteration_snapshot_witness :
    runLoop 10 [ReadResult.terminal] ⟨1, 0, false⟩ =
      some ⟨(if snapshotCond 1 then [Event.putSnapshot 1] else []) ++ [Event.printSaving] ++
              cleanupTrace ⟨1, 0, true⟩, Outcome.exited 0, ⟨1, 0, true⟩, []⟩ :=
  C10_terminal_iteration_snapshot.1 10 [] ⟨1, 0, false⟩ rfl (by decide)

theorem runMain_trace_shape (inp : MainInput) (res : MainRes)
    (hl : inp.loaderOk = true) (hc : inp.ctorOk = true)
    (h : runMain inp = some res) :
    ∃ pre fs, res.trace = pre ++ cleanupTrace fs ∧
      Event.closeEngine ∉ pre ∧ Event.putSentinel ∉ pre := by
  rw [runMain_ok inp hl hc] at h
  rcases Option.map_eq_some'.mp h with ⟨r0, hr0, rfl⟩
  obtain ⟨hall, body, hb, hbody⟩ := runLoop_shape _ _ _ _ hr0
  refine ⟨preTrace inp ++ body, r0.finalState, by simp [hb], ?_, ?_⟩
  · intro hm
    rcases List.mem_append.mp hm with hm | hm
    · rcases mem_preTrace hm with hx | hx | hx | hx | hx <;> simp_all
    · have := hbody _ hm
      simp [isBodyEvent] at this
  · intro hm
    rcases List.mem_append.mp hm with hm | hm
    · rcases mem_preTrace hm with hx | hx | hx | hx | hx <;> simp_all
    · have := hbody _ hm
      simp [isBodyEvent] at this

/-- Claim C1: every completed run that reaches the decode loop (loader and
engine construction both succeed) performs the finalization sequence of
cleanup (lines 261-264) exactly once, whichever way the loop exits: the
trace ends with a single contiguous cleanup block and contains exactly one
closeEngine and exactly one putSentinel event. -/
theorem C1_finalization_exactly_once (inp : MainInput) (res : MainRes)
    (hl : inp.loaderOk = true) (hc : inp.ctorOk = true)
    (h : runMain inp = some res) :
    (∃ pre fs, res.trace = pre ++ cleanupTrace fs ∧
        Event.closeEngine ∉ pre ∧ Event.putSentinel ∉ pre) ∧
    res.trace.count Event.closeEngine = 1 ∧
    res.trace.count Event.putSentinel = 1 := by
  obtain ⟨pre, fs, htr, hnc, hns⟩ := runMain_trace_shape inp res hl hc h
  refine ⟨⟨pre, fs, htr, hnc, hns⟩, ?_, ?_⟩
  · rw [htr, List.count_append, List.count_eq_zero.mpr hnc]
    simp [cleanupTrace]
  · rw [htr, List.count_append, List.count_eq_zero.mpr hns]
    simp [cleanupTrace]

/-- Claim C1, witness: the three exit paths (normal completion, interrupt,
decode error) each finalize exactly once. -/
theorem C1_finalization_exactly_once_witness :
    (∃ res, runMain ⟨true, false, false, "VHS", true, 1, 0, [ReadResult.field, ReadResult.field]⟩ = some res ∧
      res.trace.count Event.closeEngine = 1 ∧ res.trace.count Event.putSentinel = 1) ∧
    (∃ res, runMain ⟨true, false, false, "VHS", true, 1, 0, [ReadResult.interrupt]⟩ = some res ∧
      res.trace.count Event.closeEngine = 1 ∧ res.trace.count Event.putSentinel = 1) ∧
    (∃ res, runMain ⟨true, false, false, "VHS", true, 1, 0, [ReadResult.err]⟩ = some res ∧
      res.trace.count Event.closeEngine = 1 ∧ res.trace.count Event.putSentinel = 1) := by
  refine ⟨⟨⟨[Event.maskSigint, Event.constructEngine "VHS", Event.restoreSigint, Event.startWriter,
      Event.putSnapshot 1, Event.putSnapshot 2, Event.printSaving, Event.putSnapshot 2,
      Event.closeEngine, Event.putSentinel], Outcome.exited 0⟩, rfl, ?_⟩,
    ⟨⟨[Event.maskSigint, Event.constructEngine "VHS", Event.restoreSigint, Event.startWriter,
      Event.printTerminated, Event.putSnapshot 0, Event.closeEngine, Event.putSentinel],
      Outcome.exited 1⟩, rfl, ?_⟩,
    ⟨⟨[Event.maskSigint, Event.constructEngine "VHS", Event.restoreSigint, Event.startWriter,
      Event.printErrHeader, Event.printErrSample 0, Event.printErrArgs, Event.printErrException,
      Event.putSnapshot 0, Event.closeEngine, Event.putSentinel], Outcome.exited 1⟩, rfl, ?_⟩⟩
  · exact (C1_finalization_exactly_once
      ⟨true, false, false, "VHS", true, 1, 0, [ReadResult.field, ReadResult.field]⟩
      ⟨[Event.maskSigint, Event.constructEngine "VHS", Event.restoreSigint, Event.startWriter,
        Event.putSnapshot 1, Event.putSnapshot 2, Event.printSaving, Event.putSnapshot 2,
        Event.closeEngine, Event.putSentinel], Outcome.exited 0⟩ rfl rfl rfl).2
  · exact (C1_finalization_exactly_once
      ⟨true, false, false, "VHS", true, 1, 0, [ReadResult.interrupt]⟩
      ⟨[Event.maskSigint, Event.constructEngine "VHS", Event.restoreSigint, Event.startWriter,
        Event.printTerminated, Event.putSnapshot 0, Event.closeEngine, Event.putSentinel],
        Outcome.exited 1⟩ rfl rfl rfl).2
  · exact (C1_finalization_exactly_once
      ⟨true, false, false, "VHS", true, 1, 0, [ReadResult.err]⟩
      ⟨[Event.maskSigint, Event.constructEngine "VHS", Event.restoreSigint, Event.startWriter,
        Event.printErrHeader, Event.printErrSample 0, Event.printErrArgs, Event.printErrException,
        Event.putSnapshot 0, Event.closeEngine, Event.putSentinel], Outcome.exited 1⟩ rfl rfl rfl).2

/-- Claim C2: completed runs reaching the loop exit 0 exactly when neither
failure print happened, and exit 1 when one did; a KeyboardInterrupt from
readfield prints the termination message, runs cleanup, exits 1 and consumes
nothing further from the input; any other exception prints the stderr
diagnostic (header, current sample offset, arguments, exception with
traceback), runs cleanup, exits 1 and consumes nothing further, so neither
failure path retries the field read. -/
theorem C2_exit_codes :
    (∀ inp res, inp.loaderOk = true → inp.ctorOk = true → runMain inp = some res →
      (res.outcome = Outcome.exited 0 ∧ Event.printTerminated ∉ res.trace ∧
        Event.printErrHeader ∉ res.trace) ∨
      (res.outcome = Outcome.exited 1 ∧
        (Event.printTerminated ∈ res.trace ∨ Event.printErrHeader ∈ res.trace))) ∧
    (∀ target rest st, st.done = false → st.fieldsWritten < target →
      runLoop target (ReadResult.interrupt :: rest) st =
        some ⟨[Event.printTerminated] ++ cleanupTrace st, Outcome.exited 1, st, rest⟩) ∧
    (∀ target rest st, st.done = false → st.fieldsWritten < target →
      runLoop target (ReadResult.err :: rest) st =
        some ⟨diagTrace st ++ cleanupTrace st, Outcome.exited 1, st, rest⟩) := by
  refine ⟨?_, ?_, ?_⟩
  · intro inp res hl hc h
    rw [runMain_ok inp hl hc] at h
    rcases Option.map_eq_some'.mp h with ⟨r0, hr0, rfl⟩
    have hpt : Event.printTerminated ∉ preTrace inp := fun hm => by
      rcases mem_preTrace hm with hx | hx | hx | hx | hx <;> simp_all
    have hph : Event.printErrHeader ∉ preTrace inp := fun hm => by
      rcases mem_preTrace hm with hx | hx | hx | hx | hx <;> simp_all
    rcases runLoop_exit_code _ _ _ _ hr0 with ⟨h0, h1, h2⟩ | ⟨h0, h1⟩
    · refine Or.inl ⟨h0, ?_, ?_⟩
      · intro hm
        rcases List.mem_append.mp hm with hm | hm
        · exact hpt hm
        · exact h1 hm
      · intro hm
        rcases List.mem_append.mp hm with hm | hm
        · exact hph hm
        · exact h2 hm
    · refine Or.inr ⟨h0, ?_⟩
      rcases h1 with h1 | h1
      · exact Or.inl (List.mem_append.mpr (Or.inr h1))
      · exact Or.inr (List.mem_append.mpr (Or.inr h1))
  · intro target rest st hd ht
    exact runLoop_live_interrupt target rest st (by simp [hd]; omega)
  · intro target rest st hd ht
    exact runLoop_live_err target rest st (by simp [hd]; omega)

/-- Claim C2, witness: a normal run exits 0; an interrupt and a decode
error each print, clean up, exit 1 and leave the rest of the script
unread. -/
theorem C2_exit_codes_witness :
    (((⟨[Event.maskSigint, Event.constructEngine "VHS", Event.restoreSigint, Event.startWriter,
        Event.putSnapshot 1, Event.putSnapshot 2, Event.printSaving, Event.putSnapshot 2,
        Event.closeEngine, Event.putSentinel], Outcome.exited 0⟩ : MainRes).outcome = Outcome.exited 0 ∧
      Event.printTerminated ∉ (⟨[Event.maskSigint, Event.constructEngine "VHS", Event.restoreSigint,
        Event.startWriter, Event.putSnapshot 1, Event.putSnapshot 2, Event.printSaving,
        Event.putSnapshot 2, Event.closeEngine, Event.putSentinel], Outcome.exited 0⟩ : MainRes).trace ∧
      Event.printErrHeader ∉ (⟨[Event.maskSigint, Event.constructEngine "VHS", Event.restoreSigint,
        Event.startWriter, Event.putSnapshot 1, Event.putSnapshot 2, Event.printSaving,
        Event.putSnapshot 2, Event.closeEngine, Event.putSentinel], Outcome.exited 0⟩ : MainRes).trace) ∨
     ((⟨[Event.maskSigint, Event.constructEngine "VHS", Event.restoreSigint, Event.startWriter,
        Event.putSnapshot 1, Event.putSnapshot 2, Event.printSaving, Event.putSnapshot 2,
        Event.closeEngine, Event.putSentinel], Outcome.exited 0⟩ : MainRes).outcome = Outcome.exited 1 ∧
      (Event.printTerminated ∈ (⟨[Event.maskSigint, Event.constructEngine "VHS", Event.restoreSigint,
        Event.startWriter, Event.putSnapshot 1, Event.putSnapshot 2, Event.printSaving,
        Event.putSnapshot 2, Event.closeEngine, Event.putSentinel], Outcome.exited 0⟩ : MainRes).trace ∨
       Event.printErrHeader ∈ (⟨[Event.maskSigint, Event.constructEngine "VHS", Event.restoreSigint,
        Event.startWriter, Event.putSnapshot 1, Event.putSnapshot 2, Event.printSaving,
        Event.putSnapshot 2, Event.closeEngine, Event.putSentinel], Outcome.exited 0⟩ : MainRes).trace))) ∧
    runLoop 4 [ReadResult.interrupt, ReadResult.field] ⟨0, 5, false⟩ =
      some ⟨[Event.printTerminated] ++ cleanupTrace ⟨0, 5, false⟩, Outcome.exited 1,
            ⟨0, 5, false⟩, [ReadResult.field]⟩ ∧
    runLoop 4 [ReadResult.err, ReadResult.field] ⟨0, 5, false⟩ =
      some ⟨diagTrace ⟨0, 5, false⟩ ++ cleanupTrace ⟨0, 5, false⟩, Outcome.exited 1,
            ⟨0, 5, false⟩, [ReadResult.field]⟩ := by
  refine ⟨?_, ?_, ?_⟩
  · exact C2_exit_codes.1 ⟨true, false, false, "VHS", true, 1, 0, [ReadResult.field, ReadResult.field]⟩
      _ rfl rfl rfl
  · exact C2_exit_codes.2.1 4 [ReadResult.field] ⟨0, 5, false⟩ rfl (by decide)
  · exact C2_exit_codes.2.2 4 [ReadResult.field] ⟨0, 5, false⟩ rfl (by decide)

/-- Claim C3: with target req_frames * 2, a script of exactly that many
fields ends the loop normally with nothing further consumed (termination as
soon as fieldsWritten reaches 2N, given the engine increments fieldsWritten
per successful read and never returns the terminal marker early), and a
terminal marker after k of them, k below the target, ends the loop normally
and earlier, not as an error (exit 0). -/
theorem C3_loop_termination :
    (∀ (N off : Nat) (rest : List ReadResult),
      ∃ res, runLoop (N * 2) (List.replicate (N * 2) ReadResult.field ++ rest)
          ⟨0, off, false⟩ = some res ∧
        res.outcome = Outcome.exited 0 ∧ res.finalState.fieldsWritten = N * 2 ∧
        res.remaining = rest) ∧
    (∀ (N k off : Nat) (rest : List ReadResult), k < N * 2 →
      ∃ res, runLoop (N * 2) (List.replicate k ReadResult.field ++ ReadResult.terminal :: rest)
          ⟨0, off, false⟩ = some res ∧
        res.outcome = Outcome.exited 0 ∧ res.finalState.fieldsWritten = k ∧
        res.remaining = rest) := by
  constructor
  · intro N off rest
    exact runLoop_fields (N * 2) (N * 2) ⟨0, off, false⟩ rest rfl (by simp)
  · intro N k off rest hk
    have := runLoop_terminal_early k (N * 2) ⟨0, off, false⟩ rest rfl (by simpa using hk)
    simpa using this

/-- Claim C3, witness: one requested frame, two fields consumed exactly; and
an early terminal marker after one field. -/
theorem C3_loop_termination_witness :
    (∃ res, runLoop (1 * 2) (List.replicate (1 * 2) ReadResult.field ++ [ReadResult.field])
        ⟨0, 3, false⟩ = some res ∧
      res.outcome = Outcome.exited 0 ∧ res.finalState.fieldsWritten = 1 * 2 ∧
      res.remaining = [ReadResult.field]) ∧
    (∃ res, runLoop (2 * 2) (List.replicate 1 ReadResult.field ++ ReadResult.terminal :: [])
        ⟨0, 3, false⟩ = some res ∧
      res.outcome = Outcome.exited 0 ∧ res.finalState.fieldsWritten = 1 ∧
      res.remaining = []) :=
  ⟨C3_loop_termination.1 1 3 [ReadResult.field],
   C3_loop_termination.2 2 1 3 [] (by omega)⟩

theorem runMain_queueMsgs (inp : MainInput) (res : MainRes)
    (hl : inp.loaderOk = true) (hc : inp.ctorOk = true)
    (h : runMain inp = some res) :
    ∃ ms fs, queueMsgs res.trace = (ms ++ [Event.putSnapshot fs]) ++ [Event.putSentinel] ∧
      Event.putSentinel ∉ ms ++ [Event.putSnapshot fs] := by
  obtain ⟨pre, fs, htr, hnc, hns⟩ := runMain_trace_shape inp res hl hc h
  refine ⟨queueMsgs pre, fs.fieldsWritten, ?_, ?_⟩
  · rw [htr]
    unfold queueMsgs
    rw [List.filter_append]
    simp [cleanupTrace, isQueueMsg]
  · intro hm
    rcases List.mem_append.mp hm with hm | hm
    · exact hns (List.mem_of_mem_filter hm)
    · simp at hm

/-- Claim C6: in every completed run reaching the loop the sentinel is
enqueued exactly once, as the last queue message, strictly after the final
(cleanup) snapshot which is the message just before it; and inside cleanup
(lines 261-264) the order is final snapshot enqueue, then engine close, then
sentinel enqueue, so the FIFO writer processes the sentinel last. -/
theorem C6_sentinel_last (inp : MainInput) (res : MainRes)
    (hl : inp.loaderOk = true) (hc : inp.ctorOk = true)
    (h : runMain inp = some res) :
    res.trace.count Event.putSentinel = 1 ∧
    (∃ ms fs, queueMsgs res.trace = ms ++ [Event.putSentinel] ∧
      Event.putSentinel ∉ ms ∧ ms.getLast? = some (Event.putSnapshot fs)) ∧
    (∀ st, cleanupTrace st =
      [Event.putSnapshot st.fieldsWritten, Event.closeEngine, Event.putSentinel]) := by
  obtain ⟨pre, fs, htr, hnc, hns⟩ := runMain_trace_shape inp res hl hc h
  obtain ⟨ms, fw, hq, hnq⟩ := runMain_queueMsgs inp res hl hc h
  refine ⟨?_, ⟨ms ++ [Event.putSnapshot fw], fw, hq, hnq, List.getLast?_concat _⟩, fun st => rfl⟩
  rw [htr, List.count_append, List.count_eq_zero.mpr hns]
  simp [cleanupTrace]

/-- Claim C6, witness. -/
theorem C6_sentinel_last_witness :
    ∃ ms fs, queueMsgs ([Event.maskSigint, Event.constructEngine "VHS", Event.restoreSigint,
        Event.startWriter, Event.putSnapshot 1, Event.putSnapshot 2, Event.printSaving,
        Event.putSnapshot 2, Event.closeEngine, Event.putSentinel] : List Event) =
      ms ++ [Event.putSentinel] ∧ Event.putSentinel ∉ ms ∧
      ms.getLast? = some (Event.putSnapshot fs) :=
  (C6_sentinel_last ⟨true, false, false, "VHS", true, 1, 0, [ReadResult.field, ReadResult.field]⟩
    ⟨[Event.maskSigint, Event.constructEngine "VHS", Event.restoreSigint, Event.startWriter,
      Event.putSnapshot 1, Event.putSnapshot 2, Event.printSaving, Event.putSnapshot 2,
      Event.closeEngine, Event.putSentinel], Outcome.exited 0⟩ rfl rfl rfl).2.1

/-- Claim C7: by the time finalization completes, the writer modelled from
the spec (FIFO consumption, stops at the sentinel, with finalization
blocking until it has drained and stopped) has processed every enqueued
message, the sentinel last: writerProcessed of the enqueued messages is the
whole message list, whose last element is the sentinel. -/
theorem C7_finalization_waits_for_drain (inp : MainInput) (res : MainRes)
    (hl : inp.loaderOk = true) (hc : inp.ctorOk = true)
    (h : runMain inp = some res) :
    writerProcessed (queueMsgs res.trace) = queueMsgs res.trace ∧
    (queueMsgs res.trace).getLast? = some Event.putSentinel := by
  obtain ⟨ms, fw, hq, hnq⟩ := runMain_queueMsgs inp res hl hc h
  rw [hq]
  exact ⟨writerProcessed_all hnq, List.getLast?_concat _⟩

/-- Claim C7, witness. -/
theorem C7_finalization_waits_for_drain_witness :
    writerProcessed (queueMsgs ([Event.maskSigint, Event.constructEngine "VHS",
        Event.restoreSigint, Event.startWriter, Event.printTerminated, Event.putSnapshot 0,
        Event.closeEngine, Event.putSentinel] : List Event)) =
      queueMsgs ([Event.maskSigint, Event.constructEngine "VHS", Event.restoreSigint,
        Event.startWriter, Event.printTerminated, Event.putSnapshot 0, Event.closeEngine,
        Event.putSentinel] : List Event) :=
  (C7_finalization_waits_for_drain ⟨true, false, false, "VHS", true, 1, 0, [ReadResult.interrupt]⟩
    ⟨[Event.maskSigint, Event.constructEngine "VHS", Event.restoreSigint, Event.startWriter,
      Event.printTerminated, Event.putSnapshot 0, Event.closeEngine, Event.putSentinel],
      Outcome.exited 1⟩ rfl rfl rfl).1
